import Mathlib

/-!
Shallow embedding of the diving-tourism demo backend (Express + Prisma).

Coordinates and temperatures are modelled as rationals (every JS float is a
rational), timestamps as naturals, identifiers as strings.  Database rows
become lists of structures; each Prisma call becomes an explicit function on
the database state.  Randomness (`Math.random()`), freshly generated cuids
and the wall clock are passed in as explicit parameters.
-/

namespace DivingApp

/-- Row of the `DivingCenter` table. -/
structure DivingCenter where
  id : String
  name : String
  latitude : ℚ
  longitude : ℚ
deriving DecidableEq, Repr

/-- Rarity tiers of the tiered variant (`FishRarity` Prisma enum). -/
inductive FishRarity where
  | COMMON
  | RARE
  | EPIC
deriving DecidableEq, Repr

/-- Row of the `Fish` table.  `rarity` is `none` in the untiered schema. -/
structure Fish where
  id : String
  name : String
  image : Option String
  rarity : Option FishRarity
deriving DecidableEq, Repr

/-- Row of the `FishSighting` table. -/
structure FishSighting where
  id : String
  fishId : String
  latitude : ℚ
  longitude : ℚ
  timestamp : ℕ
deriving DecidableEq, Repr

/-- Reading attached to a temperature sensor (enriched variant). -/
structure Reading where
  temperature : ℚ
  timestamp : ℕ
deriving DecidableEq, Repr

/-- Row of the `TemperatureSensor` table, with its readings. -/
structure TemperatureSensor where
  id : String
  latitude : ℚ
  longitude : ℚ
  readings : List Reading
deriving DecidableEq, Repr

/-- The relational store. -/
structure DB where
  divingCenters : List DivingCenter
  fish : List Fish
  sightings : List FishSighting
  sensors : List TemperatureSensor
deriving DecidableEq, Repr

/-! ### Generic left-to-right best-element scan

`prisma.findFirst` with an `orderBy`, the `take: 1` includes and the
nearest-sensor `for` loop all scan a list from the left and keep the current
best element, replacing it only on strict improvement (so the first of
several equally good elements wins).  `pickGo` is that scan; the element with
the least `key` is kept. -/

/-- Left fold keeping the element with the strictly smallest `key` seen so
far; on ties the earlier element is kept. -/
def pickGo {α κ : Type} [LinearOrder κ] (key : α → κ) :
    Option α → List α → Option α
  | best, [] => best
  | none, x :: rest => pickGo key (some x) rest
  | some b, x :: rest =>
      pickGo key (some (if key x < key b then x else b)) rest

/-- First element of `l` attaining the minimal `key`, if any. -/
def pickFirstMin {α κ : Type} [LinearOrder κ] (key : α → κ) (l : List α) :
    Option α :=
  pickGo key none l

theorem pickGo_none {α κ : Type} [LinearOrder κ] (key : α → κ)
    (l : List α) : pickGo key none l = none ↔ l = [] := by
  cases l with
  | nil => simp [pickGo]
  | cons x rest =>
      simp only [pickGo]
      constructor
      · intro h
        exfalso
        induction rest generalizing x with
        | nil => simp [pickGo] at h
        | cons y ys ih =>
            simp only [pickGo] at h
            exact ih _ h
      · intro h
        cases h

theorem pickGo_acc_spec {α κ : Type} [LinearOrder κ] (key : α → κ) :
    ∀ (l : List α) (b : α), ∃ o, pickGo key (some b) l = some o ∧
      key o ≤ key b ∧ (∀ x ∈ l, key o ≤ key x) ∧
      (o = b ∨ (key o < key b ∧
        ∃ l₁ l₂, l = l₁ ++ o :: l₂ ∧ ∀ x ∈ l₁, key o < key x))
  | [], b => ⟨b, rfl, le_refl _, by simp, Or.inl rfl⟩
  | x :: rest, b => by
      by_cases hx : key x < key b
      · obtain ⟨o, ho, hle, hall, hcase⟩ := pickGo_acc_spec key rest x
        refine ⟨o, ?_, ?_, ?_, ?_⟩
        · simpa [pickGo, hx] using ho
        · exact le_of_lt (lt_of_le_of_lt hle hx)
        · intro y hy
          rcases List.mem_cons.mp hy with rfl | hy
          · exact hle
          · exact hall y hy
        · rcases hcase with rfl | ⟨hlt, l₁, l₂, hdec, hstrict⟩
          · exact Or.inr ⟨hx, [], rest, rfl, by simp⟩
          · refine Or.inr ⟨lt_trans hlt hx, x :: l₁, l₂, by rw [hdec]; rfl, ?_⟩
            intro y hy
            rcases List.mem_cons.mp hy with rfl | hy
            · exact hlt
            · exact hstrict y hy
      · obtain ⟨o, ho, hle, hall, hcase⟩ := pickGo_acc_spec key rest b
        refine ⟨o, ?_, hle, ?_, ?_⟩
        · simpa [pickGo, hx] using ho
        · intro y hy
          rcases List.mem_cons.mp hy with rfl | hy
          · exact le_trans hle (le_of_not_lt hx)
          · exact hall y hy
        · rcases hcase with rfl | ⟨hlt, l₁, l₂, hdec, hstrict⟩
          · exact Or.inl rfl
          · refine Or.inr ⟨hlt, x :: l₁, l₂, by rw [hdec]; rfl, ?_⟩
            intro y hy
            rcases List.mem_cons.mp hy with rfl | hy
            · exact lt_of_lt_of_le hlt (le_of_not_lt hx)
            · exact hstrict y hy

/-- On a nonempty list the scan returns the first element attaining the
minimal key: some decomposition `l = l₁ ++ o :: l₂` where everything before
`o` is strictly worse and `o` is weakly best overall. -/
theorem pickFirstMin_spec {α κ : Type} [LinearOrder κ] (key : α → κ)
    (l : List α) (hne : l ≠ []) :
    ∃ o l₁ l₂, pickFirstMin key l = some o ∧ l = l₁ ++ o :: l₂ ∧
      (∀ x ∈ l₁, key o < key x) ∧ (∀ x ∈ l, key o ≤ key x) := by
  cases l with
  | nil => exact absurd rfl hne
  | cons x rest =>
      obtain ⟨o, ho, hle, hall, hcase⟩ := pickGo_acc_spec key rest x
      rcases hcase with rfl | ⟨hlt, l₁, l₂, hdec, hstrict⟩
      · refine ⟨o, [], rest, ho, rfl, by simp, ?_⟩
        intro y hy
        rcases List.mem_cons.mp hy with rfl | hy
        · exact le_refl _
        · exact hall y hy
      · refine ⟨o, x :: l₁, l₂, ho, by rw [hdec]; rfl, ?_, ?_⟩
        · intro y hy
          rcases List.mem_cons.mp hy with rfl | hy
          · exact hlt
          · exact hstrict y hy
        · intro y hy
          rcases List.mem_cons.mp hy with rfl | hy
          · exact le_of_lt hlt
          · exact hall y hy

theorem pickFirstMin_mem {α κ : Type} [LinearOrder κ] (key : α → κ)
    (l : List α) (o : α) (h : pickFirstMin key l = some o) : o ∈ l := by
  cases l with
  | nil => simp [pickFirstMin, pickGo] at h
  | cons x rest =>
      obtain ⟨o', ho', _, _, hcase⟩ := pickGo_acc_spec key rest x
      have : o' = o := by
        have := ho'.symm.trans h
        exact Option.some.inj this
      subst this
      rcases hcase with rfl | ⟨_, l₁, l₂, hdec, _⟩
      · exact List.mem_cons_self _ _
      · rw [hdec]
        exact List.mem_cons_of_mem _ (by simp)

theorem pickFirstMin_isSome {α κ : Type} [LinearOrder κ] (key : α → κ)
    (l : List α) (hne : l ≠ []) : ∃ o, pickFirstMin key l = some o := by
  obtain ⟨o, l₁, l₂, ho, _, _, _⟩ := pickFirstMin_spec key l hne
  exact ⟨o, ho⟩

theorem pickFirstMin_min {α κ : Type} [LinearOrder κ] (key : α → κ)
    (l : List α) (o : α) (h : pickFirstMin key l = some o) :
    ∀ x ∈ l, key o ≤ key x := by
  cases l with
  | nil => simp [pickFirstMin, pickGo] at h
  | cons x rest =>
      obtain ⟨o', l₁, l₂, ho', _, _, hall⟩ :=
        pickFirstMin_spec key (x :: rest) (by simp)
      have : o' = o := Option.some.inj (ho'.symm.trans h)
      subst this
      exact hall

/-! ### Sighting rotator (`fishSightingService.ts`, both variants)

`Math.random()` draws are passed in as a rational `u ∈ [0,1)`; the
comparator-shuffled array is passed in as `shuffled` (any permutation of the
candidate set); each loop iteration's freshly sampled point, generated cuid
and `new Date()` are passed in as the `aux` list. -/

/-- Mirrors `prisma.fishSighting.findFirst(where fishId, orderBy timestamp
asc)`: the first sighting of `fid` with minimal timestamp. -/
def findOldestSighting (sightings : List FishSighting) (fid : String) :
    Option FishSighting :=
  pickFirstMin (fun s => s.timestamp)
    (sightings.filter (fun s => s.fishId == fid))

/-- The row inserted by `prisma.fishSighting.create` in the loop body. -/
def newSighting (fid : String) (pt : ℚ × ℚ) (nid : String) (now : ℕ) :
    FishSighting :=
  { id := nid, fishId := fid, latitude := pt.1, longitude := pt.2,
    timestamp := now }

/-- Body of the rotator loop for one fish: delete the oldest sighting of the
fish (if any), then insert one fresh sighting with the current timestamp. -/
def rotateOne (sightings : List FishSighting) (fid : String) (pt : ℚ × ℚ)
    (nid : String) (now : ℕ) : List FishSighting :=
  let afterDelete :=
    match findOldestSighting sightings fid with
    | some oldest => sightings.eraseP (fun s => s.id == oldest.id)
    | none => sightings
  afterDelete ++ [newSighting fid pt nid now]

/-- The `for (const fish of fishToUpdate)` loop: each item is
`(fishId, sampled point, fresh cuid, wall clock)`. -/
def runRotation (sightings : List FishSighting) :
    List (String × (ℚ × ℚ) × String × ℕ) → List FishSighting
  | [] => sightings
  | (fid, pt, nid, now) :: rest =>
      runRotation (rotateOne sightings fid pt nid now) rest

/-- Refresh count of the untiered variant:
`Math.floor(Math.random() * (maxToUpdate - minToUpdate + 1)) + minToUpdate`
with `minToUpdate = 1`, `maxToUpdate = allFish.length`. -/
def numToUpdateUntiered (numFish : ℕ) (u : ℚ) : ℤ :=
  let minToUpdate : ℤ := 1
  let maxToUpdate : ℤ := numFish
  ⌊u * ((maxToUpdate : ℚ) - (minToUpdate : ℚ) + 1)⌋ + minToUpdate

/-- Refresh count of the tiered variant: common fish use `1 .. all`, other
tiers use `0 .. 1`. -/
def numToUpdateTiered (rarity : FishRarity) (numFish : ℕ) (u : ℚ) : ℤ :=
  let minToUpdate : ℤ := if rarity = FishRarity.COMMON then 1 else 0
  let maxToUpdate : ℤ := if rarity = FishRarity.COMMON then numFish else 1
  ⌊u * ((maxToUpdate : ℚ) - (minToUpdate : ℚ) + 1)⌋ + minToUpdate

/-- Mirrors `shuffled.slice(0, numToUpdate)`. -/
def selectFishToUpdate (shuffled : List Fish) (numToUpdate : ℤ) : List Fish :=
  shuffled.take numToUpdate.toNat

/-- One tick of the untiered rotator (`updateFishSightings`). -/
def updateFishSightings (db : DB) (u : ℚ) (shuffled : List Fish)
    (aux : List ((ℚ × ℚ) × String × ℕ)) : DB :=
  let allFish := db.fish
  let numToUpdate := numToUpdateUntiered allFish.length u
  let fishToUpdate := selectFishToUpdate shuffled numToUpdate
  { db with
    sightings :=
      runRotation db.sightings ((fishToUpdate.map Fish.id).zip aux) }

/-- One tick of the tiered rotator (`updateFishSightings(rarity)`). -/
def updateFishSightingsTiered (db : DB) (rarity : FishRarity) (u : ℚ)
    (shuffled : List Fish) (aux : List ((ℚ × ℚ) × String × ℕ)) : DB :=
  let allFish := db.fish.filter (fun f => f.rarity == some rarity)
  let numToUpdate := numToUpdateTiered rarity allFish.length u
  let fishToUpdate := selectFishToUpdate shuffled numToUpdate
  { db with
    sightings :=
      runRotation db.sightings ((fishToUpdate.map Fish.id).zip aux) }

/-- Rotator loop where an iteration's store access may throw.  The source
loop has no try/catch, so a throw aborts the loop: writes of earlier
iterations persist, the current and remaining fish are not processed, and
the error propagates to the caller (second component `true`). -/
def runRotationFallible (sightings : List FishSighting)
    (fails : String → Bool) :
    List (String × (ℚ × ℚ) × String × ℕ) → List FishSighting × Bool
  | [] => (sightings, false)
  | (fid, pt, nid, now) :: rest =>
      if fails fid then (sightings, true)
      else runRotationFallible (rotateOne sightings fid pt nid now) fails rest

/-- Number of sightings of a given fish in the store. -/
def sightingCount (sightings : List FishSighting) (fid : String) : ℕ :=
  (sightings.filter (fun s => s.fishId == fid)).length

/-! ### Temperature-correlation enrichment (`fishService.ts`, enriched
variant) -/

/-- Mirrors the helper `squaredDistance`: planar squared distance on raw
latitude/longitude. -/
def squaredDistance (a b : ℚ × ℚ) : ℚ :=
  let dLat := a.1 - b.1
  let dLon := a.2 - b.2
  dLat * dLat + dLon * dLon

/-- Mirrors `readings: orderBy timestamp desc, take 1`: the first reading
with maximal timestamp. -/
def latestReading (readings : List Reading) : Option Reading :=
  pickFirstMin (fun r => OrderDual.toDual r.timestamp) readings

/-- Mirrors `sightings: orderBy timestamp desc, take 1` for one fish. -/
def latestSightingOf (sightings : List FishSighting) (fid : String) :
    Option FishSighting :=
  pickFirstMin (fun s => OrderDual.toDual s.timestamp)
    (sightings.filter (fun s => s.fishId == fid))

/-- The nearest-sensor `for` loop: keeps the sensor (reading or not) whose
squared distance to the sighting is strictly smaller than the best so far,
so ties go to the sensor encountered first. -/
def nearestSensor (pt : ℚ × ℚ) (sensors : List TemperatureSensor) :
    Option TemperatureSensor :=
  pickFirstMin (fun s => squaredDistance pt (s.latitude, s.longitude)) sensors

/-- Static table `PREFERRED_TEMPERATURE_RANGES` (name, min, max). -/
def PREFERRED_TEMPERATURE_RANGES : List (String × ℚ × ℚ) :=
  [("clownfish", 24, 28), ("blue tang", 24, 28), ("parrotfish", 25, 29),
   ("grouper", 22, 28), ("surgeonfish", 24, 29), ("lionfish", 23, 29),
   ("angelfish", 24, 28), ("mandarin", 23, 27), ("tuna", 18, 24),
   ("shark", 16, 26)]

/-- Per-character lowering, mirroring `toLowerCase` on the ASCII names the
table uses. -/
def lowercase (s : String) : String :=
  String.mk (s.data.map Char.toLower)

/-- Lookup in the static range table. -/
def lookupRange (key : String) : Option (ℚ × ℚ) :=
  (PREFERRED_TEMPERATURE_RANGES.find? (fun e => e.1 == key)).map
    (fun e => e.2)

/-- Fallback of `getPreferredRangeForFish` when the name has no entry. -/
def rarityFallbackRange (rarity : Option FishRarity) : ℚ × ℚ :=
  match rarity with
  | some FishRarity.COMMON => (28, 30)
  | some FishRarity.RARE => (22, 28)
  | some FishRarity.EPIC => (20, 28)
  | none => (20, 30)

/-- Mirrors `getPreferredRangeForFish(fishName, rarity)`; the outer
truthiness test `if (fishName)` skips the lookup for a missing or empty
name. -/
def getPreferredRangeForFish (fishName : Option String)
    (rarity : Option FishRarity) : ℚ × ℚ :=
  match fishName with
  | some name =>
      if name = "" then rarityFallbackRange rarity
      else
        match lookupRange (lowercase name) with
        | some r => r
        | none => rarityFallbackRange rarity
  | none => rarityFallbackRange rarity

/-- The inclusive bounds test `temp >= preferredMin && temp <= preferredMax`. -/
def inRangeFlag (t mn mx : ℚ) : Bool :=
  decide (mn ≤ t) && decide (t ≤ mx)

/-- Shape of the transformed `latestSighting` object. -/
structure EnrichedSighting where
  latitude : ℚ
  longitude : ℚ
  timestamp : ℕ
  temperature : Option ℚ
  temperatureTimestamp : Option ℕ
  isTemperatureInPreferredRange : Option Bool
deriving DecidableEq, Repr

/-- The value `nearestSensor?.reading`: the latest reading of the nearest
sensor, if there is a nearest sensor. -/
def nearestLatestReading (sighting : FishSighting)
    (sensors : List TemperatureSensor) : Option Reading :=
  match nearestSensor (sighting.latitude, sighting.longitude) sensors with
  | none => none
  | some s => latestReading s.readings

/-- Temperature-correlation enrichment of one sighting: nearest sensor over
all sensors, then that sensor's latest reading (null fields when absent). -/
def enrichSighting (sighting : FishSighting)
    (sensors : List TemperatureSensor) (preferredMin preferredMax : ℚ) :
    EnrichedSighting :=
  let reading : Option Reading := nearestLatestReading sighting sensors
  let temp : Option ℚ := reading.map (fun r => r.temperature)
  let tempTimestamp : Option ℕ := reading.map (fun r => r.timestamp)
  let inPreferredRange : Option Bool :=
    temp.map (fun t => inRangeFlag t preferredMin preferredMax)
  { latitude := sighting.latitude, longitude := sighting.longitude,
    timestamp := sighting.timestamp, temperature := temp,
    temperatureTimestamp := tempTimestamp,
    isTemperatureInPreferredRange := inPreferredRange }

/-! ### Read services and routes (`fishService.ts`, `divingCenterService.ts`,
`index.ts`) -/

/-- Element of the `GET /api/fish` response.  `preferredRange` is `some`
exactly when the JSON object carries the `preferredTemperatureMin/Max`
keys. -/
structure FishOut where
  fish : Fish
  preferredRange : Option (ℚ × ℚ)
  latestSighting : Option EnrichedSighting
deriving DecidableEq, Repr

/-- Mirrors `prisma.fish.findMany(include latest sighting)`: a read, so the
state is returned unchanged. -/
def findManyFishWithLatestSighting (db : DB) :
    DB × List (Fish × Option FishSighting) :=
  (db, db.fish.map (fun f => (f, latestSightingOf db.sightings f.id)))

/-- Mirrors `prisma.temperatureSensor.findMany(include latest reading)`. -/
def findManySensors (db : DB) : DB × List TemperatureSensor :=
  (db, db.sensors)

/-- Mirrors `prisma.divingCenter.findMany()`. -/
def getAllDivingCenters (db : DB) : DB × List DivingCenter :=
  (db, db.divingCenters)

/-- The enriched `getAllFish` service: fish with their latest sighting, plus
nearest-sensor temperature correlation.  A fish with no sighting gets
`latestSighting: null` and no preferred-range keys. -/
def getAllFish (db : DB) : DB × List FishOut :=
  let fishRows := findManyFishWithLatestSighting db
  let sensors := findManySensors fishRows.1
  (sensors.1,
    fishRows.2.map (fun fr =>
      match fr.2 with
      | none => { fish := fr.1, preferredRange := none, latestSighting := none }
      | some sighting =>
          let range := getPreferredRangeForFish (some fr.1.name) fr.1.rarity
          { fish := fr.1, preferredRange := some range,
            latestSighting :=
              some (enrichSighting sighting sensors.2 range.1 range.2) }))

/-- The `GET /api/fish` route handler: 200 with the service result, or 500
with a generic error body when the store access throws (`storeFails`). -/
def handleGetAllFish (db : DB) (storeFails : Bool) :
    DB × ℕ × Option (List FishOut) :=
  if storeFails then (db, 500, none)
  else ((getAllFish db).1, 200, some (getAllFish db).2)

/-! ### Geo-sampler (`geoPointService.ts`)

The projection `@turf/destination` is an external collaborator; the spec
treats it at the interface level as a great-circle projection.  It enters as
the parameter `dest : bearing → distanceKm → GeoPoint`, and the theorems
assume only its interface contract (projecting at distance `d` lands at
great-circle distance `d` from the center; distance `0` returns the
center). -/

/-- Point on the sphere, latitude/longitude in degrees. -/
structure GeoPoint where
  lat : ℝ
  lon : ℝ

/-- The projected distance `DIVING_AREA_RADIUS * Math.sqrt(Math.random())`. -/
noncomputable def projectedDistance (R u : ℝ) : ℝ := R * Real.sqrt u

/-- Mirrors `randomPointInCircle`: a uniform bearing `v * 360`, the
area-corrected distance `R * sqrt u`, then the projection `dest`. -/
noncomputable def randomPointInCircle (dest : ℝ → ℝ → GeoPoint)
    (R u v : ℝ) : GeoPoint :=
  let bearing := v * 360
  let distanceKm := projectedDistance R u
  dest bearing distanceKm

/-! ## Supporting lemmas -/

theorem mem_filter_fishId {s : FishSighting} {l : List FishSighting}
    {fid : String} :
    s ∈ l.filter (fun x => x.fishId == fid) ↔ s ∈ l ∧ s.fishId = fid := by
  simp [List.mem_filter]

theorem sightingCount_eq_zero_iff {l : List FishSighting} {fid : String} :
    sightingCount l fid = 0 ↔ l.filter (fun x => x.fishId == fid) = [] := by
  simp [sightingCount, List.length_eq_zero]

theorem findOldestSighting_eq_none {l : List FishSighting} {fid : String}
    (h : sightingCount l fid = 0) : findOldestSighting l fid = none := by
  rw [findOldestSighting, sightingCount_eq_zero_iff.mp h]
  rfl

theorem findOldestSighting_spec {l : List FishSighting} {fid : String}
    (h : sightingCount l fid ≠ 0) :
    ∃ o, findOldestSighting l fid = some o ∧ o ∈ l ∧ o.fishId = fid ∧
      ∀ s ∈ l, s.fishId = fid → o.timestamp ≤ s.timestamp := by
  have hne : l.filter (fun x => x.fishId == fid) ≠ [] := by
    intro hcon
    exact h (sightingCount_eq_zero_iff.mpr hcon)
  obtain ⟨o, ho⟩ := pickFirstMin_isSome (fun s => s.timestamp) _ hne
  have homem := pickFirstMin_mem _ _ _ ho
  have homin := pickFirstMin_min _ _ _ ho
  obtain ⟨hol, hofid⟩ := mem_filter_fishId.mp homem
  refine ⟨o, ho, hol, hofid, ?_⟩
  intro s hs hsfid
  exact homin s (mem_filter_fishId.mpr ⟨hs, hsfid⟩)

/-! ## Claim theorems -/

/-- C1.  Per-fish effect of a rotator tick iteration: with at least one
prior sighting the oldest-timestamped sighting is deleted and exactly one
sighting is inserted (count unchanged); with zero prior sightings one
sighting is appended (count becomes one); the inserted sighting carries the
current timestamp, which is at least every previously-existing sighting
timestamp of that fish. -/
theorem rotateOne_count_and_timestamp
    (st : List FishSighting) (fid : String) (pt : ℚ × ℚ) (nid : String)
    (now : ℕ)
    (hids : (st.map FishSighting.id).Nodup)
    (hnow : ∀ s ∈ st, s.fishId = fid → s.timestamp ≤ now) :
    (sightingCount st fid = 0 →
      rotateOne st fid pt nid now = st ++ [newSighting fid pt nid now] ∧
      sightingCount (rotateOne st fid pt nid now) fid = 1) ∧
    (sightingCount st fid ≠ 0 →
      ∃ o l₁ l₂, findOldestSighting st fid = some o ∧ o.fishId = fid ∧
        (∀ s ∈ st, s.fishId = fid → o.timestamp ≤ s.timestamp) ∧
        st = l₁ ++ o :: l₂ ∧
        rotateOne st fid pt nid now =
          (l₁ ++ l₂) ++ [newSighting fid pt nid now] ∧
        sightingCount (rotateOne st fid pt nid now) fid =
          sightingCount st fid) ∧
    (newSighting fid pt nid now ∈ rotateOne st fid pt nid now ∧
      (newSighting fid pt nid now).fishId = fid ∧
      (newSighting fid pt nid now).timestamp = now ∧
      ∀ s ∈ st, s.fishId = fid →
        s.timestamp ≤ (newSighting fid pt nid now).timestamp) := by
  refine ⟨?_, ?_, ?_⟩
  · intro h0
    have hnone := findOldestSighting_eq_none h0
    have heq : rotateOne st fid pt nid now =
        st ++ [newSighting fid pt nid now] := by
      rw [rotateOne, hnone]
    refine ⟨heq, ?_⟩
    rw [heq, sightingCount, List.filter_append]
    have : sightingCount st fid = 0 := h0
    rw [sightingCount] at this
    simp [this, newSighting]
  · intro h0
    obtain ⟨o, ho, hol, hofid, homin⟩ := findOldestSighting_spec h0
    have hpo : (fun s => s.id == o.id) o = true := by simp
    obtain ⟨a, l₁, l₂, hl₁, hpa, hdec, herase⟩ :=
      @List.exists_of_eraseP _ (fun s => s.id == o.id) _ _ hol hpo
    have hao : a = o := by
      have haid : a.id = o.id := by simpa using hpa
      have hamem : a ∈ st := by rw [hdec]; simp
      exact List.inj_on_of_nodup_map hids hamem hol haid
    subst hao
    have heq : rotateOne st fid pt nid now =
        (l₁ ++ l₂) ++ [newSighting fid pt nid now] := by
      rw [rotateOne, ho]
      exact congrArg (fun l => l ++ [newSighting fid pt nid now]) herase
    refine ⟨a, l₁, l₂, ho, hofid, homin, hdec, heq, ?_⟩
    rw [heq, hdec, sightingCount, sightingCount]
    simp only [List.filter_append, List.length_append, List.filter_cons]
    have : (a.fishId == fid) = true := by simpa using hofid
    simp [this, newSighting]
    omega
  · refine ⟨?_, rfl, rfl, ?_⟩
    · rw [rotateOne]
      cases findOldestSighting st fid <;> simp
    · intro s hs hsfid
      exact hnow s hs hsfid

/-- Witness for C1 at a concrete store: one prior sighting of the fish. -/
theorem rotateOne_count_and_timestamp_witness :
    sightingCount [⟨"s1", "f1", 0, 0, 3⟩] "f1" ≠ 0 ∧
    sightingCount
      (rotateOne [⟨"s1", "f1", 0, 0, 3⟩] "f1" (1, 2) "s2" 7) "f1" =
      sightingCount [⟨"s1", "f1", 0, 0, 3⟩] "f1" := by
  have h := rotateOne_count_and_timestamp [⟨"s1", "f1", 0, 0, 3⟩] "f1"
    (1, 2) "s2" 7 (by decide)
    (by
      intro s hs hsfid
      rcases List.mem_singleton.mp hs with rfl
      decide)
  refine ⟨by decide, ?_⟩
  obtain ⟨o, l₁, l₂, _, _, _, _, _, hcount⟩ := h.2.1 (by decide)
  exact hcount

/-- C4.  Geo-sampler radius bound: the projected distance is `R * sqrt u`,
so under the interface contract of the external projection (`dest` lands at
exactly the projected great-circle distance, and distance 0 is the center)
every returned point lies within great-circle distance `R` of the center,
and `R = 0` returns the center exactly. -/
theorem randomPointInCircle_within_radius
    (dest : ℝ → ℝ → GeoPoint) (center : GeoPoint)
    (gcDist : GeoPoint → GeoPoint → ℝ)
    (hdest : ∀ bearing d, 0 ≤ d → gcDist center (dest bearing d) = d)
    (hzero : ∀ bearing, dest bearing 0 = center)
    (R u v : ℝ) (hR : 0 ≤ R) (hu0 : 0 ≤ u) (hu1 : u < 1) :
    projectedDistance R u = R * Real.sqrt u ∧
    gcDist center (randomPointInCircle dest R u v) ≤ R ∧
    (R = 0 → randomPointInCircle dest R u v = center) := by
  have hs0 : 0 ≤ Real.sqrt u := Real.sqrt_nonneg u
  have hs1 : Real.sqrt u ≤ 1 := Real.sqrt_le_one.mpr (le_of_lt hu1)
  have hd0 : 0 ≤ projectedDistance R u := mul_nonneg hR hs0
  have hunfold : randomPointInCircle dest R u v =
      dest (v * 360) (projectedDistance R u) := rfl
  refine ⟨rfl, ?_, ?_⟩
  · rw [hunfold, hdest _ _ hd0]
    calc projectedDistance R u = R * Real.sqrt u := rfl
    _ ≤ R * 1 := mul_le_mul_of_nonneg_left hs1 hR
    _ = R := mul_one R
  · intro hR0
    rw [hunfold]
    have : projectedDistance R u = 0 := by
      rw [projectedDistance, hR0, zero_mul]
    rw [this]
    exact hzero _

/-- Witness for C4 with a concrete projection satisfying the contract. -/
theorem randomPointInCircle_within_radius_witness :
    (fun (a b : GeoPoint) => b.lat - a.lat) ⟨0, 0⟩
        (randomPointInCircle (fun _ d => ⟨d, 0⟩) 1 (1 / 2) 0) ≤ 1 ∧
    ((1 : ℝ) = 0 →
      randomPointInCircle (fun _ d => ⟨d, 0⟩) 1 (1 / 2) 0 = ⟨0, 0⟩) := by
  have h := randomPointInCircle_within_radius (fun _ d => ⟨d, 0⟩) ⟨0, 0⟩
    (fun a b => b.lat - a.lat)
    (fun bearing d _ => by simp)
    (fun bearing => rfl)
    1 (1 / 2) 0 (by norm_num) (by norm_num) (by norm_num)
  exact ⟨h.2.1, h.2.2⟩

/-- C3 (amended).  Rotator failure semantics of the source loop: with no
failing fish the fallible loop agrees with the plain loop and reports no
error; when the first failing fish is reached, earlier fish keep their
delete/insert pairs, the failing fish and all remaining selected fish are
not processed, and the error propagates out of the tick. -/
theorem runRotationFallible_aborts
    (fails : String → Bool) :
    (∀ (items : List (String × (ℚ × ℚ) × String × ℕ))
        (st : List FishSighting),
      (∀ it ∈ items, fails it.1 = false) →
      runRotationFallible st fails items = (runRotation st items, false)) ∧
    (∀ (items₁ : List (String × (ℚ × ℚ) × String × ℕ))
        (bad : String × (ℚ × ℚ) × String × ℕ)
        (rest : List (String × (ℚ × ℚ) × String × ℕ))
        (st : List FishSighting),
      (∀ it ∈ items₁, fails it.1 = false) → fails bad.1 = true →
      runRotationFallible st fails (items₁ ++ bad :: rest) =
        (runRotation st items₁, true)) := by
  constructor
  · intro items
    induction items with
    | nil => intro st _; rfl
    | cons it rest ih =>
        intro st hall
        obtain ⟨fid, pt, nid, now⟩ := it
        have hf : fails fid = false := hall _ (List.mem_cons_self _ _)
        rw [runRotationFallible, runRotation, hf]
        exact ih _ (fun x hx => hall x (List.mem_cons_of_mem _ hx))
  · intro items₁
    induction items₁ with
    | nil =>
        intro bad rest st _ hbad
        obtain ⟨fid, pt, nid, now⟩ := bad
        simp only [List.nil_append, runRotationFallible, runRotation]
        rw [hbad]
        simp
    | cons it items ih =>
        intro bad rest st hall hbad
        obtain ⟨fid, pt, nid, now⟩ := it
        have hf : fails fid = false := hall _ (List.mem_cons_self _ _)
        simp only [List.cons_append, runRotationFallible, runRotation]
        rw [hf]
        exact ih bad rest _ (fun x hx => hall x (List.mem_cons_of_mem _ hx))
          hbad

/-- Witness for C3's amended theorem on concrete data. -/
theorem runRotationFallible_aborts_witness :
    runRotationFallible [] (fun fid => fid == "f1")
        [("f2", (0, 0), "n2", 5), ("f1", (0, 0), "n1", 5),
         ("f3", (0, 0), "n3", 5)] =
      (runRotation [] [("f2", (0, 0), "n2", 5)], true) := by
  have h := (runRotationFallible_aborts (fun fid => fid == "f1")).2
    [("f2", (0, 0), "n2", 5)] ("f1", (0, 0), "n1", 5)
    [("f3", (0, 0), "n3", 5)] []
    (by decide) (by decide)
  exact h

/-- C3 counterexample: with two selected fish where the first one's
delete/insert pair fails, the remaining fish's pair is not performed — its
fresh sighting `n2` never appears and its sighting count stays 1, refuting
that the tick continues for the remaining selected fish. -/
theorem runRotationFallible_claim_false :
    (runRotationFallible [⟨"s2", "f2", 0, 0, 1⟩] (fun fid => fid == "f1")
        [("f1", (0, 0), "n1", 5), ("f2", (3, 4), "n2", 5)]).1 =
      [⟨"s2", "f2", 0, 0, 1⟩] ∧
    (runRotationFallible [⟨"s2", "f2", 0, 0, 1⟩] (fun fid => fid == "f1")
        [("f1", (0, 0), "n1", 5), ("f2", (3, 4), "n2", 5)]).2 = true ∧
    ¬ ∃ s ∈ (runRotationFallible [⟨"s2", "f2", 0, 0, 1⟩]
        (fun fid => fid == "f1")
        [("f1", (0, 0), "n1", 5), ("f2", (3, 4), "n2", 5)]).1,
      s.id = "n2" := by
  refine ⟨by decide, by decide, ?_⟩
  decide

/-- C5 (amended).  Selection of a rotator tick: no duplicates, never more
fish than the candidate set; on a nonempty candidate set the untiered (and
common-tier) refresh count is `⌊u·n⌋ + 1`, lying in `[1, n]` and taking the
value `k` exactly for `u` in the equal-width window `[(k-1)/n, k/n)` — a
uniform integer in `[1, n]`; non-common tiers draw 0 or 1.  (On an empty
candidate set the count is 1, outside `[1, 0]`; see the counterexample.) -/
theorem rotator_selection_spec
    (candidates shuffled : List Fish) (hperm : shuffled.Perm candidates)
    (hnodup : (candidates.map Fish.id).Nodup)
    (u : ℚ) (hu0 : 0 ≤ u) (hu1 : u < 1) :
    (∀ n : ℤ, ((selectFishToUpdate shuffled n).map Fish.id).Nodup ∧
        (selectFishToUpdate shuffled n).length ≤ candidates.length) ∧
    (candidates ≠ [] →
        1 ≤ numToUpdateUntiered candidates.length u ∧
        numToUpdateUntiered candidates.length u ≤ candidates.length) ∧
    (∀ k : ℤ, 1 ≤ k → k ≤ candidates.length →
        (numToUpdateUntiered candidates.length u = k ↔
          ((k : ℚ) - 1) / (candidates.length : ℚ) ≤ u ∧
            u < (k : ℚ) / (candidates.length : ℚ))) ∧
    (numToUpdateTiered FishRarity.COMMON candidates.length u =
        numToUpdateUntiered candidates.length u) ∧
    (∀ r, r ≠ FishRarity.COMMON →
        numToUpdateTiered r candidates.length u = 0 ∨
        numToUpdateTiered r candidates.length u = 1) := by
  have hsimp : numToUpdateUntiered candidates.length u =
      ⌊u * (candidates.length : ℚ)⌋ + 1 := by
    simp [numToUpdateUntiered]
  refine ⟨?_, ?_, ?_, ?_, ?_⟩
  · intro n
    have hshnodup : (shuffled.map Fish.id).Nodup :=
      ((hperm.map Fish.id).nodup_iff).mpr hnodup
    constructor
    · exact hshnodup.sublist ((List.take_sublist _ _).map Fish.id)
    · calc (selectFishToUpdate shuffled n).length ≤ shuffled.length :=
          (List.take_sublist _ _).length_le
      _ = candidates.length := hperm.length_eq
  · intro hne
    have hn1 : 1 ≤ candidates.length := List.length_pos.mpr hne
    have hnpos : (0 : ℚ) < (candidates.length : ℚ) := by
      exact_mod_cast Nat.lt_of_lt_of_le Nat.zero_lt_one hn1
    rw [hsimp]
    constructor
    · have : (0 : ℤ) ≤ ⌊u * (candidates.length : ℚ)⌋ :=
        Int.floor_nonneg.mpr (mul_nonneg hu0 (le_of_lt hnpos))
      omega
    · have hlt : u * (candidates.length : ℚ) < (candidates.length : ℚ) := by
        calc u * (candidates.length : ℚ) <
            1 * (candidates.length : ℚ) :=
              mul_lt_mul_of_pos_right hu1 hnpos
        _ = (candidates.length : ℚ) := one_mul _
      have : ⌊u * (candidates.length : ℚ)⌋ < (candidates.length : ℤ) :=
        Int.floor_lt.mpr (by exact_mod_cast hlt)
      omega
  · intro k hk1 hkn
    have hn1 : (1 : ℤ) ≤ candidates.length := le_trans hk1 hkn
    have hnpos : (0 : ℚ) < (candidates.length : ℚ) := by
      exact_mod_cast hn1
    rw [hsimp]
    constructor
    · intro hval
      have hfl : ⌊u * (candidates.length : ℚ)⌋ = k - 1 := by omega
      have := Int.floor_eq_iff.mp hfl
      obtain ⟨hlo, hhi⟩ := this
      constructor
      · rw [div_le_iff₀ hnpos]
        push_cast at hlo ⊢
        linarith
      · rw [lt_div_iff₀ hnpos]
        push_cast at hhi ⊢
        linarith
    · intro ⟨hlo, hhi⟩
      rw [div_le_iff₀ hnpos] at hlo
      rw [lt_div_iff₀ hnpos] at hhi
      have hfl : ⌊u * (candidates.length : ℚ)⌋ = k - 1 := by
        apply Int.floor_eq_iff.mpr
        constructor
        · push_cast
          linarith
        · push_cast
          linarith
      omega
  · simp [numToUpdateTiered, numToUpdateUntiered]
  · intro r hr
    have hmin : (if r = FishRarity.COMMON then (1 : ℤ) else 0) = 0 := by
      simp [hr]
    have hmax : (if r = FishRarity.COMMON then
        ((candidates.length : ℕ) : ℤ) else 1) = 1 := by
      simp [hr]
    have hval : numToUpdateTiered r candidates.length u = ⌊u * 2⌋ := by
      rw [numToUpdateTiered]
      rw [hmin, hmax]
      norm_num
    have h0 : (0 : ℤ) ≤ ⌊u * 2⌋ :=
      Int.floor_nonneg.mpr (mul_nonneg hu0 (by norm_num))
    have h2 : ⌊u * 2⌋ < 2 := Int.floor_lt.mpr (by push_cast; linarith)
    rw [hval]
    omega

/-- Witness for C5 on a one-fish candidate set with `u = 1/2`. -/
theorem rotator_selection_spec_witness :
    1 ≤ numToUpdateUntiered [Fish.mk "f1" "Nemo" none none].length (1 / 2) ∧
    numToUpdateUntiered [Fish.mk "f1" "Nemo" none none].length (1 / 2) ≤
      ([Fish.mk "f1" "Nemo" none none].length : ℤ) := by
  have h := rotator_selection_spec [Fish.mk "f1" "Nemo" none none]
    [Fish.mk "f1" "Nemo" none none] (List.Perm.refl _) (by decide)
    (1 / 2) (by norm_num) (by norm_num)
  exact h.2.1 (by decide)

/-- C5 counterexample: on an empty candidate set the untiered refresh count
is 1, which does not lie between 1 and the candidate-set size 0. -/
theorem rotator_count_empty_counterexample :
    numToUpdateUntiered (List.length ([] : List Fish)) 0 = 1 ∧
    ¬ numToUpdateUntiered (List.length ([] : List Fish)) 0 ≤
        (List.length ([] : List Fish) : ℤ) := by
  have h : numToUpdateUntiered (List.length ([] : List Fish)) 0 = 1 := by
    simp [numToUpdateUntiered]
  refine ⟨h, ?_⟩
  rw [h]
  decide

/-- C10.  A tick over an empty candidate set computes refresh count 1, still
selects no fish, and leaves the store (and whole database) unchanged. -/
theorem tick_empty_candidates_noop
    (db : DB) (hfish : db.fish = []) (u : ℚ) (shuffled : List Fish)
    (hperm : shuffled.Perm db.fish)
    (aux : List ((ℚ × ℚ) × String × ℕ)) :
    numToUpdateUntiered db.fish.length u = 1 ∧
    selectFishToUpdate shuffled (numToUpdateUntiered db.fish.length u) = [] ∧
    updateFishSightings db u shuffled aux = db := by
  have hsh : shuffled = [] := by
    have : shuffled.Perm [] := by rw [← hfish]; exact hperm
    exact this.eq_nil
  have hnum : numToUpdateUntiered db.fish.length u = 1 := by
    rw [hfish]
    simp [numToUpdateUntiered]
  refine ⟨hnum, ?_, ?_⟩
  · rw [hsh]
    simp [selectFishToUpdate]
  · rw [updateFishSightings, hsh]
    simp [selectFishToUpdate, runRotation]

/-- Witness for C10 on the empty database. -/
theorem tick_empty_candidates_noop_witness :
    numToUpdateUntiered (DB.mk [] [] [] []).fish.length 0 = 1 ∧
    updateFishSightings (DB.mk [] [] [] []) 0 [] [] = DB.mk [] [] [] [] := by
  have h := tick_empty_candidates_noop (DB.mk [] [] [] []) rfl 0 []
    (List.Perm.refl _) []
  exact ⟨h.1, h.2.2⟩

theorem zip_fst_sublist {α β : Type} :
    ∀ (l₁ : List α) (l₂ : List β),
      List.Sublist ((l₁.zip l₂).map Prod.fst) l₁
  | [], _ => by simp
  | _ :: _, [] => by simp
  | x :: xs, y :: ys => by
      simpa using List.Sublist.cons₂ x (zip_fst_sublist xs ys)

theorem zip_snd_sublist {α β : Type} :
    ∀ (l₁ : List α) (l₂ : List β),
      List.Sublist ((l₁.zip l₂).map Prod.snd) l₂
  | [], _ => by simp
  | _ :: _, [] => by simp
  | x :: xs, y :: ys => by
      simpa using List.Sublist.cons₂ y (zip_snd_sublist xs ys)

theorem rotateOne_ids_sublist (st : List FishSighting) (fid : String)
    (pt : ℚ × ℚ) (nid : String) (now : ℕ) :
    List.Sublist ((rotateOne st fid pt nid now).map FishSighting.id)
      (st.map FishSighting.id ++ [nid]) := by
  rw [rotateOne]
  cases findOldestSighting st fid with
  | none => simp [newSighting]
  | some o =>
      simp only [List.map_append]
      exact List.Sublist.append
        ((List.eraseP_sublist st).map FishSighting.id)
        (by simp [newSighting])

theorem rotateOne_filter_frame (st : List FishSighting) (fid g : String)
    (hg : g ≠ fid) (hids : (st.map FishSighting.id).Nodup)
    (pt : ℚ × ℚ) (nid : String) (now : ℕ) :
    (rotateOne st fid pt nid now).filter (fun s => s.fishId == g) =
      st.filter (fun s => s.fishId == g) := by
  have hnew : ((newSighting fid pt nid now).fishId == g) = false := by
    simp [newSighting]
    exact fun h => hg h.symm
  by_cases h0 : sightingCount st fid = 0
  · rw [rotateOne, findOldestSighting_eq_none h0]
    simp [List.filter_append, hnew]
  · obtain ⟨o, ho, hol, hofid, _⟩ := findOldestSighting_spec h0
    have hpo : (fun s => s.id == o.id) o = true := by simp
    obtain ⟨a, l₁, l₂, hl₁, hpa, hdec, herase⟩ :=
      @List.exists_of_eraseP _ (fun s => s.id == o.id) _ _ hol hpo
    have hao : a = o := by
      have haid : a.id = o.id := by simpa using hpa
      have hamem : a ∈ st := by rw [hdec]; simp
      exact List.inj_on_of_nodup_map hids hamem hol haid
    subst hao
    have heq : rotateOne st fid pt nid now =
        (l₁ ++ l₂) ++ [newSighting fid pt nid now] := by
      rw [rotateOne, ho]
      exact congrArg (fun l => l ++ [newSighting fid pt nid now]) herase
    have hafid : (a.fishId == g) = false := by
      simp [hofid]
      exact fun h => hg h.symm
    rw [heq, hdec]
    simp [List.filter_append, List.filter_cons, hnew, hafid]

theorem runRotation_filter_frame :
    ∀ (items : List (String × (ℚ × ℚ) × String × ℕ))
      (st : List FishSighting) (g : String),
      (st.map FishSighting.id ++
        items.map (fun it => it.2.2.1)).Nodup →
      g ∉ items.map (fun it => it.1) →
      (runRotation st items).filter (fun s => s.fishId == g) =
        st.filter (fun s => s.fishId == g)
  | [], st, g, _, _ => rfl
  | (fid, pt, nid, now) :: rest, st, g, hids, hg => by
      have hgfid : g ≠ fid := by
        intro h
        exact hg (by simp [h])
      have hgrest : g ∉ rest.map (fun it => it.1) := by
        intro h
        exact hg (by simp [h])
      have hstids : (st.map FishSighting.id).Nodup :=
        List.Nodup.of_append_left hids
      have hids' : ((rotateOne st fid pt nid now).map FishSighting.id ++
          rest.map (fun it => it.2.2.1)).Nodup := by
        have hsub : List.Sublist
            ((rotateOne st fid pt nid now).map FishSighting.id ++
              rest.map (fun it => it.2.2.1))
            ((st.map FishSighting.id ++ [nid]) ++
              rest.map (fun it => it.2.2.1)) :=
          List.Sublist.append (rotateOne_ids_sublist st fid pt nid now)
            (List.Sublist.refl _)
        have heq : (st.map FishSighting.id ++ [nid]) ++
            rest.map (fun it => it.2.2.1) =
            st.map FishSighting.id ++
              ((fid, pt, nid, now) :: rest).map (fun it => it.2.2.1) := by
          simp
        rw [heq] at hsub
        exact hsub.nodup hids
      rw [runRotation]
      rw [runRotation_filter_frame rest (rotateOne st fid pt nid now) g
        hids' hgrest]
      exact rotateOne_filter_frame st fid g hgfid hstids pt nid now

/-- C9.  Frame of one untiered rotator tick and of the read endpoints: the
tick leaves the `DivingCenter`, `Fish` and `TemperatureSensor` tables
untouched and changes no sighting of any fish outside the selected set
(provided sighting ids, existing and freshly generated, are pairwise
distinct, as primary keys and cuids are); the read services return the
store unchanged. -/
theorem rotator_and_reads_frame
    (db : DB) (u : ℚ) (shuffled : List Fish)
    (aux : List ((ℚ × ℚ) × String × ℕ))
    (hids : (db.sightings.map FishSighting.id ++
      aux.map (fun a => a.2.1)).Nodup) :
    (updateFishSightings db u shuffled aux).divingCenters =
      db.divingCenters ∧
    (updateFishSightings db u shuffled aux).fish = db.fish ∧
    (updateFishSightings db u shuffled aux).sensors = db.sensors ∧
    (∀ g : String,
      g ∉ (selectFishToUpdate shuffled
        (numToUpdateUntiered db.fish.length u)).map Fish.id →
      (updateFishSightings db u shuffled aux).sightings.filter
          (fun s => s.fishId == g) =
        db.sightings.filter (fun s => s.fishId == g)) ∧
    (getAllFish db).1 = db ∧ (getAllDivingCenters db).1 = db ∧
    (handleGetAllFish db false).1 = db := by
  refine ⟨rfl, rfl, rfl, ?_, rfl, rfl, rfl⟩
  intro g hg
  set selected := selectFishToUpdate shuffled
    (numToUpdateUntiered db.fish.length u) with hsel
  show (runRotation db.sightings
      ((selected.map Fish.id).zip aux)).filter (fun s => s.fishId == g) =
    db.sightings.filter (fun s => s.fishId == g)
  apply runRotation_filter_frame
  · have hsub : List.Sublist
        (db.sightings.map FishSighting.id ++
          ((selected.map Fish.id).zip aux).map (fun it => it.2.2.1))
        (db.sightings.map FishSighting.id ++
          aux.map (fun a => a.2.1)) := by
      apply List.Sublist.append (List.Sublist.refl _)
      have h1 : ((selected.map Fish.id).zip aux).map
          (fun it => it.2.2.1) =
          (((selected.map Fish.id).zip aux).map Prod.snd).map
            (fun a => a.2.1) := by
        simp [Function.comp]
      rw [h1]
      exact (zip_snd_sublist _ _).map _
    exact hsub.nodup hids
  · intro hmem
    apply hg
    have hsub : List.Sublist
        (((selected.map Fish.id).zip aux).map (fun it => it.1))
        (selected.map Fish.id) := zip_fst_sublist _ _
    exact hsub.subset hmem

/-- Witness for C9 on a concrete one-fish database. -/
theorem rotator_and_reads_frame_witness :
    (updateFishSightings
        (DB.mk [] [Fish.mk "f1" "Nemo" none none]
          [FishSighting.mk "s1" "f1" 0 0 0] [])
        0 [Fish.mk "f1" "Nemo" none none] [((1, 2), "n1", 9)]).fish =
      [Fish.mk "f1" "Nemo" none none] ∧
    (updateFishSightings
        (DB.mk [] [Fish.mk "f1" "Nemo" none none]
          [FishSighting.mk "s1" "f1" 0 0 0] [])
        0 [Fish.mk "f1" "Nemo" none none] [((1, 2), "n1", 9)]).sightings.filter
        (fun s => s.fishId == "f2") =
      [FishSighting.mk "s1" "f1" 0 0 0].filter (fun s => s.fishId == "f2") := by
  have h := rotator_and_reads_frame
    (DB.mk [] [Fish.mk "f1" "Nemo" none none]
      [FishSighting.mk "s1" "f1" 0 0 0] [])
    0 [Fish.mk "f1" "Nemo" none none] [((1, 2), "n1", 9)] (by decide)
  refine ⟨h.2.1, ?_⟩
  apply h.2.2.2.1 "f2"
  intro hmem
  simp only [selectFishToUpdate] at hmem
  have : ∀ x ∈ (List.take (numToUpdateUntiered
      (DB.mk [] [Fish.mk "f1" "Nemo" none none]
        [FishSighting.mk "s1" "f1" 0 0 0] []).fish.length 0).toNat
      [Fish.mk "f1" "Nemo" none none]).map Fish.id, x = "f1" := by
    intro x hx
    have := (List.take_sublist _ _).map Fish.id |>.subset hx
    simpa using this
  have := this _ hmem
  simp at this

theorem pickFirstMin_eq_none {α κ : Type} [LinearOrder κ] (key : α → κ)
    (l : List α) : pickFirstMin key l = none ↔ l = [] :=
  pickGo_none key l

theorem latestReading_eq_none {rs : List Reading} :
    latestReading rs = none ↔ rs = [] :=
  pickFirstMin_eq_none _ rs

theorem latestReading_spec {rs : List Reading} (hne : rs ≠ []) :
    ∃ r, latestReading rs = some r ∧ r ∈ rs ∧
      ∀ x ∈ rs, x.timestamp ≤ r.timestamp := by
  obtain ⟨r, l₁, l₂, hr, _, _, hall⟩ :=
    pickFirstMin_spec (fun r : Reading => OrderDual.toDual r.timestamp) rs hne
  refine ⟨r, hr, pickFirstMin_mem _ _ _ hr, ?_⟩
  intro x hx
  exact OrderDual.toDual_le_toDual.mp (hall x hx)

/-- C6.  On any nonempty sensor list the enrichment's nearest-sensor scan
returns a sensor of minimal squared planar distance to the sighting, and
every sensor listed before it is strictly farther — so among equally near
sensors the one encountered first in iteration order is chosen. -/
theorem nearestSensor_min_and_tie_first
    (pt : ℚ × ℚ) (sensors : List TemperatureSensor) (hne : sensors ≠ []) :
    ∃ o l₁ l₂, nearestSensor pt sensors = some o ∧
      sensors = l₁ ++ o :: l₂ ∧
      (∀ s ∈ l₁, squaredDistance pt (o.latitude, o.longitude) <
        squaredDistance pt (s.latitude, s.longitude)) ∧
      (∀ s ∈ sensors, squaredDistance pt (o.latitude, o.longitude) ≤
        squaredDistance pt (s.latitude, s.longitude)) := by
  obtain ⟨o, l₁, l₂, ho, hdec, hstrict, hall⟩ :=
    pickFirstMin_spec
      (fun s : TemperatureSensor =>
        squaredDistance pt (s.latitude, s.longitude)) sensors hne
  exact ⟨o, l₁, l₂, ho, hdec, hstrict, hall⟩

/-- Witness for C6: two sensors tie at squared distance 1 behind a farther
first entry; the scan picks the earlier of the tied pair. -/
theorem nearestSensor_min_and_tie_first_witness :
    ∃ o l₁ l₂,
      nearestSensor (0, 0)
        [TemperatureSensor.mk "far" 2 0 [],
         TemperatureSensor.mk "tieA" 1 0 [],
         TemperatureSensor.mk "tieB" 0 1 []] = some o ∧
      [TemperatureSensor.mk "far" 2 0 [],
       TemperatureSensor.mk "tieA" 1 0 [],
       TemperatureSensor.mk "tieB" 0 1 []] = l₁ ++ o :: l₂ ∧
      (∀ s ∈ l₁, squaredDistance (0, 0) (o.latitude, o.longitude) <
        squaredDistance (0, 0) (s.latitude, s.longitude)) ∧
      (∀ s ∈ [TemperatureSensor.mk "far" 2 0 [],
          TemperatureSensor.mk "tieA" 1 0 [],
          TemperatureSensor.mk "tieB" 0 1 []],
        squaredDistance (0, 0) (o.latitude, o.longitude) ≤
          squaredDistance (0, 0) (s.latitude, s.longitude)) :=
  nearestSensor_min_and_tie_first (0, 0)
    [TemperatureSensor.mk "far" 2 0 [],
     TemperatureSensor.mk "tieA" 1 0 [],
     TemperatureSensor.mk "tieB" 0 1 []] (by decide)

/-- C2 (amended).  The enrichment fields are null exactly when there are no
sensors or the nearest sensor (readings or not) has no reading; the three
fields are null together; and when the nearest sensor has a latest reading
the fields report its temperature, its timestamp (maximal among that
sensor's readings) and the inclusive in-range flag. -/
theorem enrichSighting_null_iff
    (sighting : FishSighting) (sensors : List TemperatureSensor)
    (mn mx : ℚ) :
    ((enrichSighting sighting sensors mn mx).temperature = none ↔
      (sensors = [] ∨ ∃ ns,
        nearestSensor (sighting.latitude, sighting.longitude) sensors =
          some ns ∧ ns.readings = [])) ∧
    ((enrichSighting sighting sensors mn mx).temperatureTimestamp = none ↔
      (enrichSighting sighting sensors mn mx).temperature = none) ∧
    ((enrichSighting sighting sensors mn mx).isTemperatureInPreferredRange =
        none ↔
      (enrichSighting sighting sensors mn mx).temperature = none) ∧
    (∀ ns r,
      nearestSensor (sighting.latitude, sighting.longitude) sensors =
        some ns →
      latestReading ns.readings = some r →
      (enrichSighting sighting sensors mn mx).temperature =
        some r.temperature ∧
      (enrichSighting sighting sensors mn mx).temperatureTimestamp =
        some r.timestamp ∧
      (enrichSighting sighting sensors mn mx).isTemperatureInPreferredRange =
        some (inRangeFlag r.temperature mn mx) ∧
      r ∈ ns.readings ∧ ∀ x ∈ ns.readings, x.timestamp ≤ r.timestamp) := by
  have htemp : (enrichSighting sighting sensors mn mx).temperature =
      (nearestLatestReading sighting sensors).map
        (fun r => r.temperature) := rfl
  have hts : (enrichSighting sighting sensors mn mx).temperatureTimestamp =
      (nearestLatestReading sighting sensors).map
        (fun r => r.timestamp) := rfl
  have hfl : (enrichSighting sighting sensors mn
        mx).isTemperatureInPreferredRange =
      ((nearestLatestReading sighting sensors).map
        (fun r => r.temperature)).map (fun t => inRangeFlag t mn mx) := rfl
  refine ⟨?_, ?_, ?_, ?_⟩
  · rw [htemp]
    cases hns : nearestSensor (sighting.latitude, sighting.longitude)
      sensors with
    | none =>
        have hsens : sensors = [] := (pickFirstMin_eq_none _ _).mp hns
        have : nearestLatestReading sighting sensors = none := by
          simp [nearestLatestReading, hns]
        rw [this]
        simp [hsens]
    | some ns =>
        have hnlr : nearestLatestReading sighting sensors =
            latestReading ns.readings := by
          simp [nearestLatestReading, hns]
        rw [hnlr]
        cases hr : latestReading ns.readings with
        | none =>
            have hrs : ns.readings = [] := latestReading_eq_none.mp hr
            exact iff_of_true rfl (Or.inr ⟨ns, rfl, hrs⟩)
        | some r =>
            apply iff_of_false
            · intro hcon
              exact Option.noConfusion hcon
            · rintro (hcon | ⟨ns', hns', hrs'⟩)
              · rw [hcon] at hns
                exact Option.noConfusion hns
              · have : ns' = ns := (Option.some.inj hns').symm
                subst this
                rw [hrs'] at hr
                exact Option.noConfusion hr
  · rw [hts, htemp]
    cases nearestLatestReading sighting sensors <;> simp
  · rw [hfl, htemp]
    cases nearestLatestReading sighting sensors <;> simp
  · intro ns r hns hr
    have hnlr : nearestLatestReading sighting sensors = some r := by
      simp [nearestLatestReading, hns, hr]
    have hrmem : r ∈ ns.readings := pickFirstMin_mem _ _ _ hr
    have hrmax : ∀ x ∈ ns.readings, x.timestamp ≤ r.timestamp := fun x hx =>
      OrderDual.toDual_le_toDual.mp (pickFirstMin_min _ _ _ hr x hx)
    refine ⟨?_, ?_, ?_, hrmem, hrmax⟩
    · rw [htemp, hnlr]
      rfl
    · rw [hts, hnlr]
      rfl
    · rw [hfl, hnlr]
      rfl

/-- Witness for C2's amended theorem: a single sensor with one reading. -/
theorem enrichSighting_null_iff_witness :
    (enrichSighting (FishSighting.mk "s1" "f1" 0 0 0)
      [TemperatureSensor.mk "B" 1 0 [Reading.mk 25 5]] 20 30).temperature =
      some 25 := by
  have h := (enrichSighting_null_iff (FishSighting.mk "s1" "f1" 0 0 0)
    [TemperatureSensor.mk "B" 1 0 [Reading.mk 25 5]] 20 30).2.2.2
    (TemperatureSensor.mk "B" 1 0 [Reading.mk 25 5]) (Reading.mk 25 5)
    rfl rfl
  exact h.1

/-- C2 counterexample: the nearest sensor has no readings while a farther
sensor has one, yet the enrichment's temperature is null — refuting "null
iff no sensor has a reading or no sensors exist". -/
theorem enrichment_null_despite_reading :
    (enrichSighting (FishSighting.mk "s1" "f1" 0 0 0)
      [TemperatureSensor.mk "A" 0 0 [],
       TemperatureSensor.mk "B" 1 0 [Reading.mk 25 5]] 20 30).temperature =
      none ∧
    ∃ s ∈ [TemperatureSensor.mk "A" 0 0 [],
        TemperatureSensor.mk "B" 1 0 [Reading.mk 25 5]],
      s.readings ≠ [] := by
  constructor
  · have hns : nearestSensor ((0 : ℚ), (0 : ℚ))
        [TemperatureSensor.mk "A" 0 0 [],
         TemperatureSensor.mk "B" 1 0 [Reading.mk 25 5]] =
        some (TemperatureSensor.mk "A" 0 0 []) := by
      norm_num [nearestSensor, pickFirstMin, pickGo, squaredDistance]
    have hnlr : nearestLatestReading (FishSighting.mk "s1" "f1" 0 0 0)
        [TemperatureSensor.mk "A" 0 0 [],
         TemperatureSensor.mk "B" 1 0 [Reading.mk 25 5]] =
        latestReading (TemperatureSensor.mk "A" 0 0 []).readings := by
      show (match nearestSensor ((0 : ℚ), (0 : ℚ))
          [TemperatureSensor.mk "A" 0 0 [],
           TemperatureSensor.mk "B" 1 0 [Reading.mk 25 5]] with
        | none => none
        | some s => latestReading s.readings) =
        latestReading (TemperatureSensor.mk "A" 0 0 []).readings
      rw [hns]
    show (nearestLatestReading (FishSighting.mk "s1" "f1" 0 0 0)
        [TemperatureSensor.mk "A" 0 0 [],
         TemperatureSensor.mk "B" 1 0 [Reading.mk 25 5]]).map
        (fun r => r.temperature) = none
    rw [hnlr]
    rfl
  · exact ⟨TemperatureSensor.mk "B" 1 0 [Reading.mk 25 5], by simp, by simp⟩

theorem lowercase_eq_empty_iff (s : String) : lowercase s = "" ↔ s = "" := by
  constructor
  · intro h
    have hdata : s.data.map Char.toLower = [] := congrArg String.data h
    have : s.data = [] := List.map_eq_nil_iff.mp hdata
    exact String.ext_iff.mpr this
  · intro h
    rw [h]
    rfl

/-- C7.  The preferred-range lookup keys on the lowercased name (so names
equal up to case get the same range); any name that misses the static table
falls back to `[22, 28]` for rarity RARE and `[20, 30]` when no rarity is
set; and the in-range flag is the inclusive test `min ≤ t ∧ t ≤ max`. -/
theorem preferredRange_spec :
    (∀ (n₁ n₂ : String) (r : Option FishRarity),
      lowercase n₁ = lowercase n₂ →
      getPreferredRangeForFish (some n₁) r =
        getPreferredRangeForFish (some n₂) r) ∧
    (∀ name : String, lookupRange (lowercase name) = none →
      getPreferredRangeForFish (some name) (some FishRarity.RARE) =
        (22, 28) ∧
      getPreferredRangeForFish (some name) none = (20, 30)) ∧
    (∀ t mn mx : ℚ, inRangeFlag t mn mx = true ↔ mn ≤ t ∧ t ≤ mx) := by
  refine ⟨?_, ?_, ?_⟩
  · intro n₁ n₂ r hlow
    by_cases h1 : n₁ = ""
    · have h2 : n₂ = "" := by
        apply (lowercase_eq_empty_iff n₂).mp
        rw [← hlow, h1]
        rfl
      rw [h1, h2]
    · have h2 : n₂ ≠ "" := by
        intro hcon
        apply h1
        apply (lowercase_eq_empty_iff n₁).mp
        rw [hlow, hcon]
        rfl
      simp only [getPreferredRangeForFish, if_neg h1, if_neg h2, hlow]
  · intro name h
    by_cases hn : name = ""
    · constructor <;>
        simp [getPreferredRangeForFish, hn, rarityFallbackRange]
    · constructor <;>
        simp [getPreferredRangeForFish, hn, h, rarityFallbackRange]
  · intro t mn mx
    simp [inRangeFlag]

/-- Witness for C7: a seeded species name absent from the static table. -/
theorem preferredRange_spec_witness :
    lookupRange (lowercase "Chevron barracuda") = none ∧
    getPreferredRangeForFish (some "Chevron barracuda")
      (some FishRarity.RARE) = (22, 28) ∧
    getPreferredRangeForFish (some "Chevron barracuda") none = (20, 30) := by
  have hlook : lookupRange (lowercase "Chevron barracuda") = none := by
    decide
  have h := preferredRange_spec.2.1 "Chevron barracuda" hlook
  exact ⟨hlook, h.1, h.2⟩

theorem latestSightingOf_isSome_iff (st : List FishSighting) (fid : String) :
    (latestSightingOf st fid).isSome ↔ ∃ s ∈ st, s.fishId = fid := by
  constructor
  · intro h
    obtain ⟨o, ho⟩ := Option.isSome_iff_exists.mp h
    have hmem := pickFirstMin_mem _ _ _ ho
    exact ⟨o, (mem_filter_fishId.mp hmem).1, (mem_filter_fishId.mp hmem).2⟩
  · rintro ⟨s, hs, hfid⟩
    have hne : st.filter (fun x => x.fishId == fid) ≠ [] := by
      intro hcon
      have := List.filter_eq_nil_iff.mp hcon s hs
      simp [hfid] at this
    obtain ⟨o, ho⟩ := pickFirstMin_isSome
      (fun s : FishSighting => OrderDual.toDual s.timestamp) _ hne
    exact Option.isSome_iff_exists.mpr ⟨o, ho⟩

/-- C8 (amended).  `GET /api/fish` answers 200 with one JSON element per
fish (the empty array on an empty fish table, not an error); each element's
`latestSighting` is an object exactly when the fish has a sighting and null
otherwise; and the `preferredTemperatureMin/Max` keys are present exactly
on the elements whose `latestSighting` is non-null (fish without sightings
lack them; see the counterexample). -/
theorem getAllFish_route_spec (db : DB) :
    (handleGetAllFish db false).2.1 = 200 ∧
    (handleGetAllFish db false).2.2 = some (getAllFish db).2 ∧
    (getAllFish db).2.length = db.fish.length ∧
    (db.fish = [] → (getAllFish db).2 = []) ∧
    (∀ o ∈ (getAllFish db).2,
      (o.preferredRange.isSome ↔ o.latestSighting.isSome) ∧
      (o.latestSighting.isSome ↔
        ∃ s ∈ db.sightings, s.fishId = o.fish.id)) := by
  refine ⟨rfl, rfl, ?_, ?_, ?_⟩
  · simp [getAllFish, findManyFishWithLatestSighting, findManySensors]
  · intro h
    simp [getAllFish, findManyFishWithLatestSighting, findManySensors, h]
  · intro o ho
    simp only [getAllFish, findManyFishWithLatestSighting, findManySensors,
      List.map_map, List.mem_map, Function.comp] at ho
    obtain ⟨f, hf, rfl⟩ := ho
    have hiff := latestSightingOf_isSome_iff db.sightings f.id
    constructor
    · cases hls : latestSightingOf db.sightings f.id <;> simp
    · cases hls : latestSightingOf db.sightings f.id with
      | none =>
          rw [hls] at hiff
          simp only [Option.isSome_none, Bool.false_eq_true, false_iff]
            at hiff
          simp [hiff]
      | some v =>
          rw [hls] at hiff
          simp only [Option.isSome_some, true_iff] at hiff
          simpa using hiff

/-- Witness for C8 on a database with one fish and one sighting. -/
theorem getAllFish_route_spec_witness :
    ((getAllFish (DB.mk [] [Fish.mk "f1" "Nemo" none none]
        [FishSighting.mk "s1" "f1" 0 0 3] [])).2).length =
      (DB.mk [] [Fish.mk "f1" "Nemo" none none]
        [FishSighting.mk "s1" "f1" 0 0 3] []).fish.length :=
  (getAllFish_route_spec _).2.2.1

/-- C8 counterexample: a fish with no sightings yields a 200 response whose
element has `latestSighting: null` and no `preferredTemperatureMin/Max`
keys, refuting "every element carries the preferred-range fields". -/
theorem getAllFish_missing_preferred_fields :
    (handleGetAllFish (DB.mk [] [Fish.mk "f1" "Nemo" none none] [] [])
        false).2.1 = 200 ∧
    (handleGetAllFish (DB.mk [] [Fish.mk "f1" "Nemo" none none] [] [])
        false).2.2 =
      some [FishOut.mk (Fish.mk "f1" "Nemo" none none) none none] :=
  ⟨rfl, rfl⟩

end DivingApp
